import Mathlib

/-! Shallow embedding of the HAL cost-estimation backend service
(backend/services/cost_calculation_service.py).  Python floats are
modelled as rationals, nullable values as `Option`, and an uncaught
raised exception as a `none` result.  The `machine_hr_rate` column is a
nullable string in the schema; it is modelled as an optional rational (a
stored value is assumed numeric).  All definitions are translated from
the source file except the clearly marked spec-side restatements
(`inferMachineCategorySpec`, `unroundedUnitCost`) used to compare the
code against the specification's wording. -/

/-- ASCII lower-casing of a character list, modelling Python `str.lower` on ASCII input. -/
def lowerChars (l : List Char) : List Char := l.map Char.toLower

/-- Strip leading and trailing whitespace, modelling Python `str.strip()`. -/
def trimChars (l : List Char) : List Char :=
  ((l.dropWhile Char.isWhitespace).reverse.dropWhile Char.isWhitespace).reverse

/-- Decide whether `needle` occurs as a contiguous substring of the second
list, modelling the Python expression `needle in hay`. -/
def isSubstrChars (needle : List Char) : List Char → Bool
  | [] => needle.isEmpty
  | c :: t => needle.isPrefixOf (c :: t) || isSubstrChars needle t

/-- String version of `isSubstrChars`: Python `needle in hay`. -/
def isSubstr (needle hay : String) : Bool := isSubstrChars needle.data hay.data

/-- Helper for `pyWords`: accumulate the current word (reversed) while scanning. -/
def wordsAux : List Char → List Char → List (List Char)
  | [], acc => if acc.isEmpty then [] else [acc.reverse]
  | c :: t, acc =>
    if c.isWhitespace then
      if acc.isEmpty then wordsAux t [] else acc.reverse :: wordsAux t []
    else wordsAux t (c :: acc)

/-- Split on whitespace runs, discarding empty words, modelling Python `str.split()`. -/
def pyWords (l : List Char) : List (List Char) := wordsAux l []

/-- Python `s.strip().lower()`, used by the service for SQL-level name comparison. -/
def pyStripLower (s : String) : String := ⟨lowerChars (trimChars s.data)⟩

/-- The `_norm` helper of `get_machine_hour_rate`: trim, lowercase, replace
underscores and hyphens with spaces, collapse whitespace runs, and strip a
trailing " duty".  `none` plays the role of Python `None` (normalised to ""). -/
def pyNorm : Option String → String
  | none => ""
  | some s =>
    let out := lowerChars (trimChars s.data)
    let out := out.map (fun c => if c = '_' ∨ c = '-' then ' ' else c)
    let out := List.intercalate [' '] (pyWords out)
    let out := if (" duty".data.reverse).isPrefixOf out.reverse then out.take (out.length - 5) else out
    ⟨out⟩

/-- Exact division on ℚ, written so that the kernel can evaluate it (Python
float division is modelled as exact rational division). -/
def ratDiv (a b : ℚ) : ℚ := Rat.divInt (a.num * (b.den : ℤ)) ((a.den : ℤ) * b.num)

/-- Multiplication on ℚ, written so that the kernel can evaluate it. -/
def qMul (a b : ℚ) : ℚ := Rat.divInt (a.num * b.num) ((a.den : ℤ) * (b.den : ℤ))

/-- Addition on ℚ, written so that the kernel can evaluate it. -/
def qAdd (a b : ℚ) : ℚ :=
  Rat.divInt (a.num * (b.den : ℤ) + b.num * (a.den : ℤ)) ((a.den : ℤ) * (b.den : ℤ))

/-- Subtraction on ℚ, written so that the kernel can evaluate it. -/
def qSub (a b : ℚ) : ℚ :=
  Rat.divInt (a.num * (b.den : ℤ) - b.num * (a.den : ℤ)) ((a.den : ℤ) * (b.den : ℤ))

theorem qMul_eq (a b : ℚ) : qMul a b = a * b := by
  rw [qMul]
  conv_rhs => rw [← Rat.num_divInt_den a, ← Rat.num_divInt_den b, Rat.divInt_mul_divInt']

theorem qAdd_eq (a b : ℚ) : qAdd a b = a + b := by
  have ha : ((a.den : ℤ)) ≠ 0 := Int.natCast_ne_zero.mpr a.den_nz
  have hb : ((b.den : ℤ)) ≠ 0 := Int.natCast_ne_zero.mpr b.den_nz
  rw [qAdd]
  conv_rhs => rw [← Rat.num_divInt_den a, ← Rat.num_divInt_den b,
    Rat.divInt_add_divInt _ _ ha hb]

theorem qSub_eq (a b : ℚ) : qSub a b = a - b := by
  have ha : ((a.den : ℤ)) ≠ 0 := Int.natCast_ne_zero.mpr a.den_nz
  have hb : ((b.den : ℤ)) ≠ 0 := Int.natCast_ne_zero.mpr b.den_nz
  rw [qSub]
  conv_rhs => rw [← Rat.num_divInt_den a, ← Rat.num_divInt_den b,
    Rat.divInt_sub_divInt _ _ ha hb]

theorem ratDiv_eq (a b : ℚ) : ratDiv a b = a / b := by
  rw [ratDiv, Rat.div_def']

/-- The ordered duty levels used by the `_bump` helper of `determine_duty_category`. -/
def dutyOrder : List String := ["light", "medium", "heavy"]

/-- The `_bump` helper of `determine_duty_category`: move `steps` up the duty
order, clamped to the ends; an unknown duty (Python `ValueError`) counts as index 0. -/
def bumpDuty (d : String) (steps : Int) : String :=
  let idx : Int :=
    match dutyOrder.findIdx? (fun x => x == d) with
    | some i => (i : Int)
    | none => 0
  dutyOrder.getD (min ((dutyOrder.length : Int) - 1) (max 0 (idx + steps))).toNat ""

/-- Rank of a duty category for comparisons: light < medium < heavy. -/
def dutyRank (d : String) : Nat := if d = "light" then 0 else if d = "medium" then 1 else 2

/-- The `dimensions` dict of a cost request: each key may be absent. -/
structure Dims where
  length : Option ℚ
  breadth : Option ℚ
  height : Option ℚ
  diameter : Option ℚ
deriving DecidableEq

/-- Guard of the rectangular geometry branch of `determine_duty_category`. -/
def rectGuard (shape : String) (dims : Dims) : Bool :=
  shape == "rectangular" && dims.length.isSome && dims.breadth.isSome && dims.height.isSome

/-- Guard of the round geometry branch of `determine_duty_category`. -/
def roundGuard (shape : String) (dims : Dims) : Bool :=
  shape == "round" && dims.diameter.isSome && dims.length.isSome

/-- Rectangular base classification by maximum dimension. -/
def rectBase (l b h : ℚ) : String :=
  let maxDim := max l (max b h)
  if maxDim ≤ 750 then "light" else if maxDim ≤ 1500 then "medium" else "heavy"

/-- Round base classification by diameter and length. -/
def roundBase (d l : ℚ) : String :=
  if d ≤ 100 ∧ l ≤ 300 then "light" else if d ≤ 300 ∧ l ≤ 1200 then "medium" else "heavy"

/-- Volume computed by the fallback heuristic of `determine_duty_category`;
`none` models the `KeyError` raised when a required dict key is absent. -/
def fallbackVolume (shape : String) (dims : Dims) : Option ℚ :=
  if shape == "round" then
    match dims.diameter, dims.length with
    | some d, some l => some (qMul (qMul (Rat.divInt 314159 100000) (qMul (ratDiv d 2) (ratDiv d 2))) l)
    | _, _ => none
  else
    match dims.length, dims.breadth, dims.height with
    | some l, some b, some hh => some (qMul (qMul l b) hh)
    | _, _, _ => none

/-- Score-based base classification of the fallback heuristic (material and
operation factors applied to volume / 1,000,000). -/
def fallbackScoreBase (volume : ℚ) (mat op : String) : String :=
  let materialFactor : ℚ :=
    if mat = "aluminium" then 1 else if mat = "steel" then 3
    else if mat = "titanium" then Rat.divInt 17 10 else 1
  let operationFactor : ℚ :=
    if op = "turning" then 1 else if op = "milling" then Rat.divInt 3 2
    else if op = "drilling" then Rat.divInt 4 5 else if op = "grinding" then Rat.divInt 6 5
    else if op = "boring" then Rat.divInt 13 10 else if op = "heat_treatment" then 2
    else if op = "welding" then Rat.divInt 9 5 else if op = "surface_treatment" then 1 else 1
  let score := qMul (qMul (ratDiv volume 1000000) materialFactor) operationFactor
  if score < 5 then "light" else if score < 20 then "medium" else "heavy"

/-- Material adjustment stage of `determine_duty_category` (`mat` already
stripped and lower-cased): steel/titanium bump the base one level when it is
"light"; titanium additionally bumps a resulting "medium" to "heavy". -/
def materialAdjust (mat base : String) : String :=
  if mat = "steel" ∨ mat = "titanium" then
    let b1 := bumpDuty base (if base = "light" then 1 else 0)
    if mat = "titanium" ∧ b1 = "medium" then bumpDuty b1 1 else b1
  else base

/-- Operation adjustment stage of `determine_duty_category` (`op` already
stripped and lower-cased): heat treatment and welding bump one level. -/
def operationAdjust (op base : String) : String :=
  if op = "heat_treatment" ∨ op = "welding" then bumpDuty base 1 else base

/-- Translation of `CostCalculationService.determine_duty_category`.  The
result is `none` exactly when the Python function raises a `KeyError` in the
fallback branch. -/
def determine_duty_category (shape : String) (dims : Dims) (material operation : String) :
    Option String :=
  let op := pyStripLower operation
  let mat := pyStripLower material
  let base :=
    if rectGuard shape dims then
      some (rectBase (dims.length.getD 0) (dims.breadth.getD 0) (dims.height.getD 0))
    else if roundGuard shape dims then
      some (roundBase (dims.diameter.getD 0) (dims.length.getD 0))
    else
      (fallbackVolume shape dims).map (fun v => fallbackScoreBase v mat op)
  base.map (fun b => operationAdjust op (materialAdjust mat b))

/-- Translation of `CostCalculationService.determine_machine_category`. -/
def determine_machine_category (machine_name : String) : String :=
  let nameLower : String := ⟨lowerChars machine_name.data⟩
  if isSubstr "cnc" nameLower || isSubstr "precision" nameLower then
    if isSubstr "5" nameLower || isSubstr "five" nameLower ||
        isSubstr "5 axis" nameLower || isSubstr "5-axis" nameLower then
      "cnc_5axis"
    else "cnc_3axis"
  else if isSubstr "spm" nameLower || isSubstr "special" nameLower then "spm"
  else "conventional"

/-- Cost breakdown record returned by `calculate_costs`. -/
structure CostBreakdown where
  man_hours_per_unit : ℚ
  machine_hour_rate : ℚ
  wage_rate : ℚ
  basic_cost_per_unit : ℚ
  overheads_per_unit : ℚ
  profit_per_unit : ℚ
  packing_forwarding_per_unit : ℚ
  unit_cost : ℚ
  total_cost : ℚ
  outsourcing_mhr : ℚ
deriving DecidableEq

/-- Floor of a rational as an integer (denominators are positive). -/
def ratFloorZ (x : ℚ) : ℤ := Int.fdiv x.num (x.den : ℤ)

/-- Round a rational to the nearest integer, ties to even, modelling the tie
rule of Python `round` on an exactly-represented value. -/
def roundHalfEven (x : ℚ) : ℤ :=
  let f := ratFloorZ x
  let frac := qSub x ((f : ℤ) : ℚ)
  if frac < mkRat 1 2 then f
  else if mkRat 1 2 < frac then f + 1
  else if f % 2 = 0 then f else f + 1

/-- Rounding to 2 decimal places, modelling Python `round(x, 2)`. -/
def round2 (x : ℚ) : ℚ := Rat.divInt (roundHalfEven (qMul x 100)) 100

/-- Rounding to 4 decimal places, modelling Python `round(x, 4)`. -/
def round4 (x : ℚ) : ℚ := Rat.divInt (roundHalfEven (qMul x 10000)) 10000

/-- Translation of `CostCalculationService.calculate_costs`. -/
def calculate_costs (man_hours machine_hour_rate wage_rate : ℚ) (quantity : ℤ) : CostBreakdown :=
  let basic_cost := qMul man_hours (qAdd machine_hour_rate wage_rate)
  let overheads := wage_rate
  let profit := qMul (Rat.divInt 10 100) (qAdd basic_cost overheads)
  let packing_forwarding := qMul (Rat.divInt 2 100) basic_cost
  let unit_cost := qAdd (qAdd (qAdd basic_cost overheads) profit) packing_forwarding
  let total_cost := qMul unit_cost ((quantity : ℤ) : ℚ)
  let outsourcing_mhr := qAdd machine_hour_rate (qMul 2 wage_rate)
  { man_hours_per_unit := round4 man_hours
    machine_hour_rate := round2 machine_hour_rate
    wage_rate := round2 wage_rate
    basic_cost_per_unit := round2 basic_cost
    overheads_per_unit := round2 overheads
    profit_per_unit := round2 profit
    packing_forwarding_per_unit := round2 packing_forwarding
    unit_cost := round2 unit_cost
    total_cost := round2 total_cost
    outsourcing_mhr := round2 outsourcing_mhr }

/-! Reference-data model: rows of the operation_type, duties, machines and mhr
tables (models.py).  Foreign-key and rate columns are nullable (`Option`).
Boolean flags model a raised exception in each of the four database queries the
service performs; a `true` flag means the corresponding query raises. -/

/-- Row of the operation_type table. -/
structure OperationTypeRow where
  id : Nat
  operation_name : String
deriving DecidableEq

/-- Row of the duties table. -/
structure DutyRow where
  id : Nat
  name : String
deriving DecidableEq

/-- Row of the machines table. -/
structure MachineRow where
  id : Nat
  name : String
deriving DecidableEq

/-- Row of the mhr table (only the columns the service reads). -/
structure MHRRow where
  id : Nat
  op_type_id : Option Nat
  duty_id : Option Nat
  machine_id : Option Nat
  machine_hr_rate : Option ℚ
deriving DecidableEq

/-- The reference-data store together with query-failure flags. -/
structure DB where
  operation_types : List OperationTypeRow
  duties : List DutyRow
  machines : List MachineRow
  mhrs : List MHRRow
  dutiesQueryFails : Bool
  opQueryFails : Bool
  mhrQueryFails : Bool
  candidatesQueryFails : Bool
deriving DecidableEq

/-- The `_resolve_duty_id` helper of `get_machine_hour_rate`: normalise the
requested duty, return `none` when empty, treat a failing duties query as no
match, else return the id of the first duty whose normalised name agrees. -/
def resolveDutyId (d : String) (db : DB) : Option Nat :=
  let dNorm := pyNorm (some d)
  if dNorm = "" then none
  else if db.dutiesQueryFails then none
  else (db.duties.find? (fun du => pyNorm (some du.name) == dNorm)).map (fun du => du.id)

/-- Resolution of the operation type id in tier 1: the given `op_type_id` if
present, else a case/whitespace-insensitive name lookup when the operation
string is non-empty. -/
def resolveOpId (operation : String) (op_type_id : Option Nat) (db : DB) : Option Nat :=
  match op_type_id with
  | some i => some i
  | none =>
    if operation != "" then
      (db.operation_types.find? (fun o =>
        pyStripLower o.operation_name == pyStripLower operation)).map (fun o => o.id)
    else none

/-- Resolution of the duty id in tier 1: the given `duty_id` if present, else
the normalised name lookup of `resolveDutyId`. -/
def resolveDuId (duty : String) (duty_id : Option Nat) (db : DB) : Option Nat :=
  match duty_id with
  | some i => some i
  | none => resolveDutyId duty db

/-- First (deterministic, ID-based) resolution tier of `get_machine_hour_rate`.
A `none` result covers "no match", a null rate on the first matching row, and
an exception absorbed by the tier's try/except block. -/
def mhrTier1 (operation duty : String) (machine_id op_type_id duty_id : Option Nat)
    (db : DB) : Option ℚ :=
  if op_type_id.isNone && (operation != "") && db.opQueryFails then none
  else
    match resolveOpId operation op_type_id db, resolveDuId duty duty_id db, machine_id with
    | some oi, some di, some mi =>
      if db.mhrQueryFails then none
      else
        match db.mhrs.find? (fun row =>
          row.op_type_id == some oi && row.duty_id == some di && row.machine_id == some mi) with
        | some row => row.machine_hr_rate
        | none => none
    | _, _, _ => none

/-- An MHR row joined with its operation type, duty and machine rows. -/
structure Cand where
  mhr : MHRRow
  op : OperationTypeRow
  duty : DutyRow
  machine : MachineRow
deriving DecidableEq

/-- Inner join of the mhr table with operation_type, duties and machines, in
encounter order of the mhr table. -/
def joinCands (db : DB) : List Cand :=
  db.mhrs.flatMap (fun r =>
    (db.operation_types.filter (fun o => r.op_type_id == some o.id)).flatMap (fun o =>
      (db.duties.filter (fun d => r.duty_id == some d.id)).flatMap (fun d =>
        (db.machines.filter (fun m => r.machine_id == some m.id)).map (fun m =>
          ⟨r, o, d, m⟩))))

/-- The SQL-narrowed candidate list of the fallback tier: joined rows whose
stored operation name equals the request operation after trim+lowercase only. -/
def tier2Candidates (operation : String) (db : DB) : List Cand :=
  (joinCands db).filter (fun c => pyStripLower c.op.operation_name == pyStripLower operation)

/-- Machine-name match score of a candidate: 2 exact, 1 substring (both names
non-empty), 0 otherwise. -/
def scoreCand (machineNorm : String) (c : Cand) : Int :=
  let recMachine := pyNorm (some c.machine.name)
  if recMachine == machineNorm then 2
  else if recMachine != "" && machineNorm != "" &&
      (isSubstr recMachine machineNorm || isSubstr machineNorm recMachine) then 1
  else 0

/-- The in-loop filter of the fallback tier: fully-normalised operation and
duty names must equal the normalised request values. -/
def candEligible (opNorm dutyNorm : String) (c : Cand) : Bool :=
  pyNorm (some c.op.operation_name) == opNorm && pyNorm (some c.duty.name) == dutyNorm

/-- The scan loop of the fallback tier: keep the best-scoring eligible
candidate (strict improvement only, hence first-encountered wins ties), and
stop early on a perfect score of 2. -/
def pickBestAux (machineNorm opNorm dutyNorm : String) :
    List Cand → Option Cand × Int → Option Cand × Int
  | [], acc => acc
  | c :: rest, acc =>
    if candEligible opNorm dutyNorm c then
      let s := scoreCand machineNorm c
      let acc2 := if s > acc.2 then (some c, s) else acc
      if acc2.2 == 2 then acc2 else pickBestAux machineNorm opNorm dutyNorm rest acc2
    else pickBestAux machineNorm opNorm dutyNorm rest acc

/-- Second (fuzzy) resolution tier of `get_machine_hour_rate`. -/
def mhrTier2 (operation duty machine_name : String) (db : DB) : Option ℚ :=
  if db.candidatesQueryFails then none
  else
    let opNorm := pyNorm (some operation)
    let dutyNorm := pyNorm (some duty)
    let machineNorm := pyNorm (some machine_name)
    match (pickBestAux machineNorm opNorm dutyNorm (tier2Candidates operation db)
        (none, -1)).1 with
    | some c => c.mhr.machine_hr_rate
    | none => none

/-- Translation of `CostCalculationService.get_machine_hour_rate`: tier 1, then
tier 2, else the "MHR not configured" `ValueError`, modelled as `none`. -/
def get_machine_hour_rate (operation duty machine_name : String)
    (machine_id op_type_id duty_id : Option Nat) (db : DB) : Option ℚ :=
  match mhrTier1 operation duty machine_id op_type_id duty_id db with
  | some r => some r
  | none => mhrTier2 operation duty machine_name db

/-- Concrete store for the fuzzy-substring scenario of the spec: one MHR row
for (turning, medium, "CNC Lathe") with rate 450. -/
def dbFuzzy : DB :=
  ⟨[⟨1, "Turning"⟩], [⟨1, "Medium"⟩], [⟨1, "CNC Lathe"⟩],
    [⟨1, some 1, some 1, some 1, some 450⟩], false, false, false, false⟩

/-- Concrete store with the operation stored as "Heat Treatment". -/
def dbHeatTreatment : DB :=
  ⟨[⟨1, "Heat Treatment"⟩], [⟨1, "medium"⟩], [⟨1, "Furnace"⟩],
    [⟨1, some 1, some 1, some 1, some 500⟩], false, false, false, false⟩

/-- Concrete store with the duty stored as "Medium Duty" and rate 300. -/
def dbDutyNorm : DB :=
  ⟨[⟨1, "Turning"⟩], [⟨1, "Medium Duty"⟩], [⟨1, "Lathe"⟩],
    [⟨1, some 1, some 1, some 1, some 300⟩], false, false, false, false⟩

/-- Concrete store whose only MHR row for the triple (1,1,1) has a null rate. -/
def dbNullRate : DB :=
  ⟨[], [], [], [⟨1, some 1, some 1, some 1, none⟩], false, false, false, false⟩

/-- Concrete store with two duplicate MHR rows for the triple (1,1,1). -/
def dbDup : DB :=
  ⟨[], [], [], [⟨1, some 1, some 1, some 1, some 100⟩, ⟨2, some 1, some 1, some 1, some 200⟩],
    false, false, false, false⟩

/-- Machine-category inference as the specification words it: lower-case the
name; "cnc"/"precision" plus a five-axis marker gives cnc_5axis, else
cnc_3axis; otherwise "spm"/"special" gives spm; else conventional. -/
def inferMachineCategorySpec (name : String) : String :=
  let n : String := ⟨lowerChars name.data⟩
  if ["cnc", "precision"].any (fun p => isSubstr p n) then
    if ["5", "five", "5 axis", "5-axis"].any (fun p => isSubstr p n) then "cnc_5axis"
    else "cnc_3axis"
  else if ["spm", "special"].any (fun p => isSubstr p n) then "spm"
  else "conventional"

/-- The unit cost before rounding, as the specification words the formula. -/
def unroundedUnitCost (A B C : ℚ) : ℚ :=
  A * (B + C) + C + (0.10 : ℚ) * (A * (B + C) + C) + (0.02 : ℚ) * (A * (B + C))

/-- Claim C9: `determine_machine_category` lower-cases the name and classifies
it exactly as the specification describes; in particular "CNC Lathe - 5 Axis"
maps to cnc_5axis, "Conventional Drill Press" to conventional and
"Special Purpose Mill" to spm. -/
theorem C9_machine_category :
    (∀ name, determine_machine_category name = inferMachineCategorySpec name) ∧
    determine_machine_category "CNC Lathe - 5 Axis" = "cnc_5axis" ∧
    determine_machine_category "Conventional Drill Press" = "conventional" ∧
    determine_machine_category "Special Purpose Mill" = "spm" := by
  refine ⟨fun name => ?_, by decide, by decide, by decide⟩
  simp only [determine_machine_category, inferMachineCategorySpec, List.any_cons, List.any_nil,
    Bool.or_false, Bool.or_assoc]

/-- Claim C2: `calculate_costs` returns exactly the documented breakdown
D = A(B+C), OH = C, Profit = 0.10(D+OH), PF = 0.02 D, UnitCost = D+OH+Profit+PF,
TotalCost = UnitCost times quantity, OutsourcingMHR = B+2C, with monetary
outputs rounded to 2 decimals and man-hours to 4; in particular
A=0.5, B=100, C=100, q=1 gives D=100, OH=100, Profit=20, PF=2, UnitCost=222,
OutsourcingMHR=300. -/
theorem C2_cost_formula :
    (∀ (A B C : ℚ) (q : ℤ),
      calculate_costs A B C q =
        { man_hours_per_unit := round4 A
          machine_hour_rate := round2 B
          wage_rate := round2 C
          basic_cost_per_unit := round2 (A * (B + C))
          overheads_per_unit := round2 C
          profit_per_unit := round2 ((0.10 : ℚ) * (A * (B + C) + C))
          packing_forwarding_per_unit := round2 ((0.02 : ℚ) * (A * (B + C)))
          unit_cost := round2 (unroundedUnitCost A B C)
          total_cost := round2 (unroundedUnitCost A B C * (q : ℚ))
          outsourcing_mhr := round2 (B + 2 * C) }) ∧
    calculate_costs (mkRat 1 2) 100 100 1 =
      ⟨mkRat 1 2, 100, 100, 100, 100, 20, 2, 222, 222, 300⟩ := by
  constructor
  · intro A B C q
    have h10 : Rat.divInt 10 100 = (0.10 : ℚ) := by
      rw [Rat.divInt_eq_div]; norm_num
    have h2 : Rat.divInt 2 100 = (0.02 : ℚ) := by
      rw [Rat.divInt_eq_div]; norm_num
    simp only [calculate_costs, unroundedUnitCost, qMul_eq, qAdd_eq, h10, h2, Int.cast_id]
  · decide

/-- Claim C10: quantity influences only the total cost; every other field of
the breakdown agrees for any two quantities, and the total cost equals the
unrounded unit cost times the quantity, rounded to two decimals. -/
theorem C10_quantity_frame :
    ∀ (A B C : ℚ) (q1 q2 : ℤ),
      (calculate_costs A B C q1).man_hours_per_unit = (calculate_costs A B C q2).man_hours_per_unit ∧
      (calculate_costs A B C q1).machine_hour_rate = (calculate_costs A B C q2).machine_hour_rate ∧
      (calculate_costs A B C q1).wage_rate = (calculate_costs A B C q2).wage_rate ∧
      (calculate_costs A B C q1).basic_cost_per_unit = (calculate_costs A B C q2).basic_cost_per_unit ∧
      (calculate_costs A B C q1).overheads_per_unit = (calculate_costs A B C q2).overheads_per_unit ∧
      (calculate_costs A B C q1).profit_per_unit = (calculate_costs A B C q2).profit_per_unit ∧
      (calculate_costs A B C q1).packing_forwarding_per_unit = (calculate_costs A B C q2).packing_forwarding_per_unit ∧
      (calculate_costs A B C q1).unit_cost = (calculate_costs A B C q2).unit_cost ∧
      (calculate_costs A B C q1).outsourcing_mhr = (calculate_costs A B C q2).outsourcing_mhr ∧
      (calculate_costs A B C q1).total_cost = round2 (unroundedUnitCost A B C * (q1 : ℚ)) := by
  intro A B C q1 q2
  refine ⟨rfl, rfl, rfl, rfl, rfl, rfl, rfl, rfl, rfl, ?_⟩
  have h10 : Rat.divInt 10 100 = (0.10 : ℚ) := by
    rw [Rat.divInt_eq_div]; norm_num
  have h2 : Rat.divInt 2 100 = (0.02 : ℚ) := by
    rw [Rat.divInt_eq_div]; norm_num
  simp only [calculate_costs, unroundedUnitCost, qMul_eq, qAdd_eq, h10, h2, Int.cast_id]

/-- Counterexample to claim C1: with base classification medium (rectangular
part, max dimension 1000) and material steel, the duty after the material
adjustment stays medium — the function returns medium, not heavy as claimed. -/
theorem C1_counterexample :
    materialAdjust "steel" "medium" = "medium" ∧
    determine_duty_category "rectangular" ⟨some 1000, some 10, some 10, none⟩
      "steel" "turning" = some "medium" := by
  exact ⟨by decide, by decide⟩

/-- Claim C1 as amended: steel or titanium bump the base duty one level only
when it is light (a medium base with steel stays medium); titanium then turns
any base into heavy; other materials leave the base unchanged; and on the
rectangular geometry branch `determine_duty_category` is exactly the operation
adjustment after this material adjustment of the geometric base. -/
theorem C1_material_adjustment :
    (∀ b, (b = "light" ∨ b = "medium" ∨ b = "heavy") →
      materialAdjust "steel" b = if b = "light" then "medium" else b) ∧
    (∀ b, (b = "light" ∨ b = "medium" ∨ b = "heavy") →
      materialAdjust "titanium" b = "heavy") ∧
    (∀ (mat b : String), ¬(mat = "steel" ∨ mat = "titanium") → materialAdjust mat b = b) ∧
    (∀ (l b h : ℚ) (dia : Option ℚ) (mat op : String),
      determine_duty_category "rectangular" ⟨some l, some b, some h, dia⟩ mat op =
        some (operationAdjust (pyStripLower op)
          (materialAdjust (pyStripLower mat) (rectBase l b h)))) := by
  refine ⟨?_, ?_, ?_, ?_⟩
  · intro b hb
    rcases hb with rfl | rfl | rfl <;> decide
  · intro b hb
    rcases hb with rfl | rfl | rfl <;> decide
  · intro mat b hmat
    simp [materialAdjust, hmat]
  · intro l b h dia mat op
    rfl

/-- Witness for C1: the amended material adjustment evaluated at steel/medium
and titanium/light, and the staging equation at a concrete rectangular part. -/
theorem C1_witness :
    materialAdjust "steel" "medium" = (if ("medium" : String) = "light" then "medium" else "medium") ∧
    materialAdjust "titanium" "light" = "heavy" ∧
    determine_duty_category "rectangular" ⟨some 1000, some 10, some 10, none⟩ "steel" "turning" =
      some (operationAdjust (pyStripLower "turning")
        (materialAdjust (pyStripLower "steel") (rectBase 1000 10 10))) :=
  ⟨C1_material_adjustment.1 "medium" (Or.inr (Or.inl rfl)),
   C1_material_adjustment.2.1 "light" (Or.inl rfl),
   C1_material_adjustment.2.2.2 1000 10 10 none "steel" "turning"⟩

/-- Counterexample to claim C8: a rectangular request missing the height key
reaches the fallback branch, which raises a `KeyError` (modelled as `none`)
instead of returning a duty category. -/
theorem C8_counterexample :
    determine_duty_category "rectangular" ⟨some 100, some 100, none, none⟩
      "aluminium" "turning" = none := by
  decide

/-- Claim C8 as amended: when neither geometry guard holds the function
computes the volume-score heuristic, but only when the keys its volume formula
needs are present; otherwise it fails with a `KeyError` rather than returning a
category.  A shape other than rectangular/round with box keys present does get
the heuristic category (concrete conjuncts). -/
theorem C8_fallback_heuristic :
    (∀ (shape : String) (dims : Dims) (mat op : String),
      rectGuard shape dims = false → roundGuard shape dims = false →
      determine_duty_category shape dims mat op =
        (fallbackVolume shape dims).map (fun v =>
          operationAdjust (pyStripLower op)
            (materialAdjust (pyStripLower mat)
              (fallbackScoreBase v (pyStripLower mat) (pyStripLower op))))) ∧
    fallbackVolume "rectangular" ⟨some 100, some 100, none, none⟩ = none ∧
    determine_duty_category "hexagonal" ⟨some 100, some 100, some 100, none⟩
      "steel" "milling" = some "medium" := by
  refine ⟨?_, by decide, by decide⟩
  intro shape dims mat op h1 h2
  simp only [determine_duty_category, h1, h2, Bool.false_eq_true, if_false, Option.map_map]
  rfl

/-- Witness for C8: the amended fallback equation evaluated at a hexagonal
shape whose box keys are present. -/
theorem C8_witness :
    determine_duty_category "hexagonal" ⟨some 100, some 100, some 100, none⟩ "steel" "milling" =
      (fallbackVolume "hexagonal" ⟨some 100, some 100, some 100, none⟩).map (fun v =>
        operationAdjust (pyStripLower "milling")
          (materialAdjust (pyStripLower "steel")
            (fallbackScoreBase v (pyStripLower "steel") (pyStripLower "milling")))) :=
  C8_fallback_heuristic.1 "hexagonal" ⟨some 100, some 100, some 100, none⟩ "steel" "milling"
    (by decide) (by decide)

theorem rectBase_mem (l b h : ℚ) :
    rectBase l b h = "light" ∨ rectBase l b h = "medium" ∨ rectBase l b h = "heavy" := by
  simp only [rectBase]
  split_ifs <;> simp

theorem roundBase_mem (d l : ℚ) :
    roundBase d l = "light" ∨ roundBase d l = "medium" ∨ roundBase d l = "heavy" := by
  simp only [roundBase]
  split_ifs <;> simp

theorem materialAdjust_mem_eq (mat : String) {b : String}
    (hb : b = "light" ∨ b = "medium" ∨ b = "heavy") :
    materialAdjust mat b =
      if mat = "titanium" then "heavy"
      else if mat = "steel" then (if b = "light" then "medium" else b)
      else b := by
  by_cases hti : mat = "titanium"
  · subst hti
    rcases hb with rfl | rfl | rfl <;> decide
  · by_cases hst : mat = "steel"
    · subst hst
      rcases hb with rfl | rfl | rfl <;> decide
    · rw [if_neg hti, if_neg hst]
      simp [materialAdjust, hst, hti]

theorem materialAdjust_mem (mat : String) {b : String}
    (hb : b = "light" ∨ b = "medium" ∨ b = "heavy") :
    materialAdjust mat b = "light" ∨ materialAdjust mat b = "medium" ∨
      materialAdjust mat b = "heavy" := by
  rw [materialAdjust_mem_eq mat hb]
  split_ifs <;> simp_all

theorem dutyRank_materialAdjust_mono (mat : String) {b b' : String}
    (hb : b = "light" ∨ b = "medium" ∨ b = "heavy")
    (hb' : b' = "light" ∨ b' = "medium" ∨ b' = "heavy")
    (hle : dutyRank b ≤ dutyRank b') :
    dutyRank (materialAdjust mat b) ≤ dutyRank (materialAdjust mat b') := by
  rw [materialAdjust_mem_eq mat hb, materialAdjust_mem_eq mat hb']
  by_cases hti : mat = "titanium"
  · rw [if_pos hti, if_pos hti]
  · rw [if_neg hti, if_neg hti]
    by_cases hst : mat = "steel"
    · rw [if_pos hst, if_pos hst]
      rcases hb with rfl | rfl | rfl <;> rcases hb' with rfl | rfl | rfl <;>
        first | decide | exact absurd hle (by decide)
    · rw [if_neg hst, if_neg hst]
      exact hle

theorem dutyRank_operationAdjust_mono (op : String) {b b' : String}
    (hb : b = "light" ∨ b = "medium" ∨ b = "heavy")
    (hb' : b' = "light" ∨ b' = "medium" ∨ b' = "heavy")
    (hle : dutyRank b ≤ dutyRank b') :
    dutyRank (operationAdjust op b) ≤ dutyRank (operationAdjust op b') := by
  by_cases hop : op = "heat_treatment" ∨ op = "welding"
  · rw [operationAdjust, if_pos hop, operationAdjust, if_pos hop]
    rcases hb with rfl | rfl | rfl <;> rcases hb' with rfl | rfl | rfl <;>
      first | decide | exact absurd hle (by decide)
  · rw [operationAdjust, if_neg hop, operationAdjust, if_neg hop]
    exact hle

theorem adjust_mono (mat op : String) {b b' : String}
    (hb : b = "light" ∨ b = "medium" ∨ b = "heavy")
    (hb' : b' = "light" ∨ b' = "medium" ∨ b' = "heavy")
    (hle : dutyRank b ≤ dutyRank b') :
    dutyRank (operationAdjust op (materialAdjust mat b)) ≤
      dutyRank (operationAdjust op (materialAdjust mat b')) :=
  dutyRank_operationAdjust_mono op (materialAdjust_mem mat hb) (materialAdjust_mem mat hb')
    (dutyRank_materialAdjust_mono mat hb hb' hle)

theorem dutyRank_rectBase_mono {l b h l' b' h' : ℚ}
    (h1 : l ≤ l') (h2 : b ≤ b') (h3 : h ≤ h') :
    dutyRank (rectBase l b h) ≤ dutyRank (rectBase l' b' h') := by
  have hm : max l (max b h) ≤ max l' (max b' h') := max_le_max h1 (max_le_max h2 h3)
  simp only [rectBase]
  by_cases c1 : max l' (max b' h') ≤ 750
  · rw [if_pos (le_trans hm c1), if_pos c1]
  · rw [if_neg c1]
    by_cases c2 : max l' (max b' h') ≤ 1500
    · rw [if_pos c2]
      have c0 : max l (max b h) ≤ 1500 := le_trans hm c2
      split_ifs <;> decide
    · rw [if_neg c2]
      split_ifs <;> decide

theorem dutyRank_roundBase_mono {d l d' l' : ℚ} (hd : d ≤ d') (hl : l ≤ l') :
    dutyRank (roundBase d l) ≤ dutyRank (roundBase d' l') := by
  simp only [roundBase]
  by_cases c1 : d' ≤ 100 ∧ l' ≤ 300
  · rw [if_pos ⟨le_trans hd c1.1, le_trans hl c1.2⟩, if_pos c1]
  · rw [if_neg c1]
    by_cases c2 : d' ≤ 300 ∧ l' ≤ 1200
    · rw [if_pos c2]
      have c0 : d ≤ 300 ∧ l ≤ 1200 := ⟨le_trans hd c2.1, le_trans hl c2.2⟩
      split_ifs <;> decide
    · rw [if_neg c2]
      split_ifs <;> decide

/-- Claim C7: for fixed material and operation, `determine_duty_category` is
monotone in part size on both geometry branches, and the boundary values are
as specified: rectangular max dimension 750 gives base light, 750.01 medium,
1500 medium, 1500.01 heavy; round (100, 300) gives base light and (101, 300)
gives medium. -/
theorem C7_monotonicity :
    (∀ (mat op : String) (l b h l' b' h' : ℚ), l ≤ l' → b ≤ b' → h ≤ h' →
      ∃ r r',
        determine_duty_category "rectangular" ⟨some l, some b, some h, none⟩ mat op = some r ∧
        determine_duty_category "rectangular" ⟨some l', some b', some h', none⟩ mat op = some r' ∧
        dutyRank r ≤ dutyRank r') ∧
    (∀ (mat op : String) (d len d' len' : ℚ), d ≤ d' → len ≤ len' →
      ∃ r r',
        determine_duty_category "round" ⟨some len, none, none, some d⟩ mat op = some r ∧
        determine_duty_category "round" ⟨some len', none, none, some d'⟩ mat op = some r' ∧
        dutyRank r ≤ dutyRank r') ∧
    rectBase 750 750 750 = "light" ∧ rectBase (mkRat 75001 100) 1 1 = "medium" ∧
    rectBase 1500 1500 1500 = "medium" ∧ rectBase (mkRat 150001 100) 1 1 = "heavy" ∧
    roundBase 100 300 = "light" ∧ roundBase 101 300 = "medium" := by
  refine ⟨?_, ?_, by decide, by decide, by decide, by decide, by decide, by decide⟩
  · intro mat op l b h l' b' h' g1 g2 g3
    refine ⟨_, _, rfl, rfl, ?_⟩
    exact adjust_mono (pyStripLower mat) (pyStripLower op) (rectBase_mem l b h)
      (rectBase_mem l' b' h') (dutyRank_rectBase_mono g1 g2 g3)
  · intro mat op d len d' len' g1 g2
    refine ⟨_, _, rfl, rfl, ?_⟩
    exact adjust_mono (pyStripLower mat) (pyStripLower op) (roundBase_mem d len)
      (roundBase_mem d' len') (dutyRank_roundBase_mono g1 g2)

/-- Witness for C7: monotonicity instantiated at a concrete pair of
rectangular parts. -/
theorem C7_witness :
    ∃ r r',
      determine_duty_category "rectangular" ⟨some 700, some 10, some 10, none⟩
        "aluminium" "turning" = some r ∧
      determine_duty_category "rectangular" ⟨some 800, some 10, some 10, none⟩
        "aluminium" "turning" = some r' ∧
      dutyRank r ≤ dutyRank r' :=
  C7_monotonicity.1 "aluminium" "turning" 700 10 10 800 10 10
    (by norm_num) (by norm_num) (by norm_num)

/-- Maximum score over a candidate list, floored at the loop's initial best
score of -1. -/
def maxScoreOf (f : Cand → Int) : List Cand → Int
  | [] => -1
  | c :: t => max (f c) (maxScoreOf f t)

theorem scoreCand_nonneg (mn : String) (c : Cand) : 0 ≤ scoreCand mn c := by
  simp only [scoreCand]
  split_ifs <;> norm_num

theorem scoreCand_le_two (mn : String) (c : Cand) : scoreCand mn c ≤ 2 := by
  simp only [scoreCand]
  split_ifs <;> norm_num

theorem maxScoreOf_le_two (mn : String) (l : List Cand) :
    maxScoreOf (scoreCand mn) l ≤ 2 := by
  induction l with
  | nil => norm_num [maxScoreOf]
  | cons c t ih =>
    simp only [maxScoreOf, max_le_iff]
    exact ⟨scoreCand_le_two mn c, ih⟩

theorem pickBestAux_spec (mn opN dutyN : String) (l : List Cand) :
    ∀ (b : Option Cand) (bs : Int), -1 ≤ bs →
      (pickBestAux mn opN dutyN l (b, bs)).1 =
        if bs < maxScoreOf (scoreCand mn) (l.filter (candEligible opN dutyN))
        then (l.filter (candEligible opN dutyN)).find?
          (fun x => scoreCand mn x == maxScoreOf (scoreCand mn) (l.filter (candEligible opN dutyN)))
        else b := by
  induction l with
  | nil =>
    intro b bs hbs
    simp only [pickBestAux, List.filter_nil, maxScoreOf, List.find?_nil]
    rw [if_neg (by omega)]
  | cons c t ih =>
    intro b bs hbs
    have hs0 : 0 ≤ scoreCand mn c := scoreCand_nonneg mn c
    have hs2 : scoreCand mn c ≤ 2 := scoreCand_le_two mn c
    have hM2 : maxScoreOf (scoreCand mn) (t.filter (candEligible opN dutyN)) ≤ 2 :=
      maxScoreOf_le_two mn _
    by_cases he : candEligible opN dutyN c = true
    · rw [List.filter_cons_of_pos he]
      simp only [pickBestAux, if_pos he, maxScoreOf]
      by_cases hsb : bs < scoreCand mn c
      · rw [if_pos hsb]
        by_cases h2 : scoreCand mn c = 2
        · have hmax :
              max (scoreCand mn c) (maxScoreOf (scoreCand mn) (t.filter (candEligible opN dutyN)))
                = scoreCand mn c := max_eq_left (by omega)
          rw [hmax]
          rw [if_pos (show ((some c, scoreCand mn c).2 == 2) = true by simpa using h2)]
          rw [if_pos hsb, List.find?_cons_of_pos _ (by simp)]
        · have hne : ((some c, scoreCand mn c).2 == 2) = false := by
            simpa using h2
          rw [if_neg (by simp [hne])]
          rw [ih (some c) (scoreCand mn c) (by omega)]
          by_cases hsM : scoreCand mn c <
              maxScoreOf (scoreCand mn) (t.filter (candEligible opN dutyN))
          · rw [if_pos hsM]
            have hmax :
                max (scoreCand mn c)
                    (maxScoreOf (scoreCand mn) (t.filter (candEligible opN dutyN)))
                  = maxScoreOf (scoreCand mn) (t.filter (candEligible opN dutyN)) :=
              max_eq_right (by omega)
            rw [hmax, if_pos (by omega), List.find?_cons_of_neg _ (by simp; omega)]
          · rw [if_neg hsM]
            have hmax :
                max (scoreCand mn c)
                    (maxScoreOf (scoreCand mn) (t.filter (candEligible opN dutyN)))
                  = scoreCand mn c := max_eq_left (by omega)
            rw [hmax, if_pos hsb, List.find?_cons_of_pos _ (by simp)]
      · rw [if_neg hsb]
        by_cases hb2 : bs = 2
        · rw [if_pos (show (((b, bs) : Option Cand × Int).2 == 2) = true by simpa using hb2)]
          rw [if_neg (show ¬(bs < max (scoreCand mn c)
            (maxScoreOf (scoreCand mn) (t.filter (candEligible opN dutyN)))) by
              have hmx : max (scoreCand mn c)
                  (maxScoreOf (scoreCand mn) (t.filter (candEligible opN dutyN))) ≤ 2 :=
                max_le hs2 hM2
              omega)]
        · rw [if_neg (show ¬((((b, bs) : Option Cand × Int).2 == 2) = true) by
            simpa using hb2)]
          rw [ih b bs hbs]
          by_cases hbM : bs < maxScoreOf (scoreCand mn) (t.filter (candEligible opN dutyN))
          · have hmax :
                max (scoreCand mn c)
                    (maxScoreOf (scoreCand mn) (t.filter (candEligible opN dutyN)))
                  = maxScoreOf (scoreCand mn) (t.filter (candEligible opN dutyN)) :=
              max_eq_right (by omega)
            rw [hmax, if_pos hbM, if_pos hbM]
            refine (List.find?_cons_of_neg _ ?_).symm
            simp only [beq_iff_eq]
            omega
          · rw [if_neg hbM, if_neg (by simp only [lt_max_iff]; omega)]
    · rw [List.filter_cons_of_neg he]
      simp only [pickBestAux, if_neg he]
      exact ih b bs hbs

theorem le_maxScoreOf_of_mem (f : Cand → Int) {c : Cand} {l : List Cand} (h : c ∈ l) :
    f c ≤ maxScoreOf f l := by
  induction l with
  | nil => cases h
  | cons d t ih =>
    rcases List.mem_cons.mp h with rfl | h2
    · simp [maxScoreOf]
    · exact le_trans (ih h2) (by simp [maxScoreOf])

/-- Claim C4: the fallback tier scores eligible candidates 2/1/0 by
machine-name match quality and selects the first candidate attaining the
maximal score (ties broken by encounter order; the early exit on a perfect
score does not change the result); concretely, an MHR row for
(turning, medium, "CNC Lathe") is found for machine name "CNC Lathe - 3 Axis"
by the substring match when no exact-ID match exists. -/
theorem C4_fuzzy_scoring :
    (∀ (mn opN dutyN : String) (l : List Cand),
      (pickBestAux mn opN dutyN l (none, -1)).1 =
        (l.filter (candEligible opN dutyN)).find?
          (fun x => scoreCand mn x ==
            maxScoreOf (scoreCand mn) (l.filter (candEligible opN dutyN)))) ∧
    get_machine_hour_rate "turning" "medium" "CNC Lathe - 3 Axis" none none none dbFuzzy =
      some 450 := by
  refine ⟨?_, by decide⟩
  intro mn opN dutyN l
  rw [pickBestAux_spec mn opN dutyN l none (-1) le_rfl]
  rcases hl : l.filter (candEligible opN dutyN) with _ | ⟨c, t⟩
  · simp [maxScoreOf]
  · have h0 := scoreCand_nonneg mn c
    have h1 := le_maxScoreOf_of_mem (scoreCand mn) (List.mem_cons_self c t)
    rw [if_pos (by omega)]

theorem resolveDutyId_fails {d : String} {db : DB} (h : db.dutiesQueryFails = true) :
    resolveDutyId d db = none := by
  unfold resolveDutyId
  split_ifs <;> simp_all

theorem mhrTier1_mhrFail {operation duty : String} {mi oi di : Option Nat} {db : DB}
    (h : db.mhrQueryFails = true) :
    mhrTier1 operation duty mi oi di db = none := by
  unfold mhrTier1
  by_cases g : (oi.isNone && (operation != "") && db.opQueryFails) = true
  · rw [if_pos g]
  · rw [if_neg g]
    cases ho : resolveOpId operation oi db <;>
      cases hd : resolveDuId duty di db <;>
        cases mi <;> simp [h]

theorem mhrTier1_opFail {operation duty : String} {mi di : Option Nat} {db : DB}
    (h : db.opQueryFails = true) (hop : operation ≠ "") :
    mhrTier1 operation duty mi none di db = none := by
  unfold mhrTier1
  rw [if_pos (show ((none : Option Nat).isNone && (operation != "") && db.opQueryFails) = true by
    simp [h, hop])]

theorem mhrTier1_dutyFail {operation duty : String} {mi oi : Option Nat} {db : DB}
    (h : db.dutiesQueryFails = true) :
    mhrTier1 operation duty mi oi none db = none := by
  unfold mhrTier1
  by_cases g : (oi.isNone && (operation != "") && db.opQueryFails) = true
  · rw [if_pos g]
  · rw [if_neg g]
    have hd : resolveDuId duty none db = none := by
      simp [resolveDuId, resolveDutyId_fails h]
    cases ho : resolveOpId operation oi db <;> cases mi <;> simp [hd]

theorem mhrTier2_candFail {operation duty machine_name : String} {db : DB}
    (h : db.candidatesQueryFails = true) :
    mhrTier2 operation duty machine_name db = none := by
  unfold mhrTier2
  rw [if_pos h]

theorem ghmr_none_iff (operation duty machine_name : String)
    (mi oi di : Option Nat) (db : DB) :
    get_machine_hour_rate operation duty machine_name mi oi di db = none ↔
      mhrTier1 operation duty mi oi di db = none ∧
      mhrTier2 operation duty machine_name db = none := by
  unfold get_machine_hour_rate
  cases h1 : mhrTier1 operation duty mi oi di db <;> simp [h1]

/-- Claim C3: the function fails with the "not configured" error exactly when
neither resolution tier yields a rate (so no silent default exists), and a
failing reference-data query in either tier is absorbed: a failing MHR or
operation or duties query makes tier 1 resolve nothing, and a failing
candidates query makes tier 2 resolve nothing, each falling through to the
error. -/
theorem C3_not_configured :
    ∀ (operation duty machine_name : String) (machine_id op_type_id duty_id : Option Nat)
      (db : DB),
      (get_machine_hour_rate operation duty machine_name machine_id op_type_id duty_id db =
          none ↔
        mhrTier1 operation duty machine_id op_type_id duty_id db = none ∧
        mhrTier2 operation duty machine_name db = none) ∧
      (db.mhrQueryFails = true →
        mhrTier1 operation duty machine_id op_type_id duty_id db = none) ∧
      (op_type_id = none → operation ≠ "" → db.opQueryFails = true →
        mhrTier1 operation duty machine_id op_type_id duty_id db = none) ∧
      (duty_id = none → db.dutiesQueryFails = true →
        mhrTier1 operation duty machine_id op_type_id duty_id db = none) ∧
      (db.candidatesQueryFails = true → mhrTier2 operation duty machine_name db = none) := by
  intro operation duty machine_name mi oi di db
  refine ⟨ghmr_none_iff operation duty machine_name mi oi di db,
    fun h => mhrTier1_mhrFail h, ?_, ?_, fun h => mhrTier2_candFail h⟩
  · rintro rfl hop h
    exact mhrTier1_opFail h hop
  · rintro rfl h
    exact mhrTier1_dutyFail h

/-- Witness for C3: with a failing MHR query, tier 1 of the concrete fuzzy
store resolves nothing. -/
theorem C3_witness :
    mhrTier1 "turning" "medium" (some 1) (some 1) (some 1)
      { dbFuzzy with mhrQueryFails := true } = none :=
  (C3_not_configured "turning" "medium" "CNC Lathe" (some 1) (some 1) (some 1)
    { dbFuzzy with mhrQueryFails := true }).2.1 rfl

/-- Counterexample to claim C6: the only MHR row matching the triple (1,1,1)
has a null machine_hr_rate, and the function raises the not-configured error
(returns `none`) instead of returning that row's rate. -/
theorem C6_counterexample :
    get_machine_hour_rate "turning" "medium" "M" (some 1) (some 1) (some 1) dbNullRate =
      none := by
  decide

/-- Claim C6 as amended: when the three ids are resolved and the first MHR row
matching the triple carries a non-null rate, that rate is returned — duplicate
rows are tolerated by taking the first match, as the concrete conjunct with
two duplicate rows (rates 100 and 200) shows. -/
theorem C6_first_match :
    (∀ (db : DB) (operation duty machine_name : String) (oi di mi : Nat) (row : MHRRow)
      (r : ℚ),
      db.mhrQueryFails = false →
      db.mhrs.find? (fun x =>
        x.op_type_id == some oi && x.duty_id == some di && x.machine_id == some mi) =
        some row →
      row.machine_hr_rate = some r →
      get_machine_hour_rate operation duty machine_name (some mi) (some oi) (some di) db =
        some r) ∧
    get_machine_hour_rate "turning" "medium" "M" (some 1) (some 1) (some 1) dbDup =
      some 100 := by
  refine ⟨?_, by decide⟩
  intro db operation duty machine_name oi di mi row r hq hf hr
  have h1 : mhrTier1 operation duty (some mi) (some oi) (some di) db = some r := by
    simp [mhrTier1, resolveOpId, resolveDuId, hq, hf, hr]
  simp [get_machine_hour_rate, h1]

/-- Witness for C6: the amended first-match rule applied to the duplicate-row
store returns the first row's rate 100. -/
theorem C6_witness :
    get_machine_hour_rate "turning" "medium" "M" (some 1) (some 1) (some 1) dbDup =
      some 100 :=
  C6_first_match.1 dbDup "turning" "medium" "M" 1 1 1 ⟨1, some 1, some 1, some 1, some 100⟩
    100 rfl (by decide) rfl

/-- Counterexample to claim C5: a request with operation "heat_treatment"
does not match an MHR row whose stored operation is named "Heat Treatment" —
the SQL narrowing compares trimmed lower-cased names without replacing
underscores, so the function raises not-configured instead of returning the
row's rate 500. -/
theorem C5_counterexample :
    get_machine_hour_rate "heat_treatment" "medium" "Furnace" none none none
      dbHeatTreatment = none := by
  decide

/-- Claim C5 as amended: a joined row is scored in the fallback tier iff its
stored operation name equals the request operation after trim and lowercase
alone (no underscore or hyphen replacement at this narrowing stage) and its
fully normalised operation and duty names equal the normalised request values;
the full normalisation does apply to the duty, so request duty "Medium-Duty"
matches a stored duty "Medium Duty" and the row's rate is returned. -/
theorem C5_candidate_normalisation :
    (∀ (operation duty : String) (db : DB) (c : Cand),
      (c ∈ tier2Candidates operation db ∧
        candEligible (pyNorm (some operation)) (pyNorm (some duty)) c = true) ↔
      (c ∈ joinCands db ∧
        pyStripLower c.op.operation_name = pyStripLower operation ∧
        pyNorm (some c.op.operation_name) = pyNorm (some operation) ∧
        pyNorm (some c.duty.name) = pyNorm (some duty))) ∧
    get_machine_hour_rate "turning" "Medium-Duty" "Lathe" none none none dbDutyNorm =
      some 300 := by
  refine ⟨?_, by decide⟩
  intro operation duty db c
  simp [tier2Candidates, candEligible, List.mem_filter, and_assoc]
